import Mathlib

/-!
Verification of the tableau-table-ext-job-scraper pipeline.

This file shallowly embeds the fetch-accumulate-normalize pipeline of
`secure_tableau_script.py`, `secure_vscode_script.py` and `config.py`:

* `extract_city_state` — the city/state derivation from a location string
  (both scripts define the identical function);
* the record normalizer (column defaulting, null replacement, text
  coercion, city/state derivation, keyed deduplication, column order);
* the pagination loop (accumulator state machine over page outcomes);
* the two entry points (the Tableau analytics-extension script body and
  the VS Code `get_job_data` function) together with their diagnostic
  table constructions, including the `pd.DataFrame` equal-length check
  on column arrays.

Strings are modelled as Lean `String` / `List Char`; Python `str.strip`
is modelled over the ASCII whitespace characters; `str.split(',')` is
modelled by `splitComma` below with the same semantics (n commas yield
n+1 parts, empty parts included).
-/

namespace JobScraper

/-- The whitespace characters removed by Python `str.strip()`
    (restricted to the ASCII whitespace set). -/
def isSpaceChar (c : Char) : Bool :=
  c = ' ' || c = '\t' || c = '\n' || c = '\x0d' || c = '\x0b' || c = '\x0c'

/-- Left strip: drop leading whitespace. -/
def trimLeft (s : List Char) : List Char := s.dropWhile isSpaceChar

/-- Right strip: drop trailing whitespace. -/
def trimRight (s : List Char) : List Char := (s.reverse.dropWhile isSpaceChar).reverse

/-- Python `str.strip()`: drop whitespace from both ends. -/
def pyStrip (s : List Char) : List Char := trimRight (trimLeft s)

/-- Python `location_str.split(',')`: split on every comma; n commas
    yield n+1 parts, empty parts included; never returns `[]`. -/
def splitComma : List Char → List (List Char)
  | [] => [[]]
  | c :: rest =>
    if c = ',' then [] :: splitComma rest
    else
      match splitComma rest with
      | p :: ps => (c :: p) :: ps
      | [] => [[c]]

/-- `extract_city_state` from both scripts: strip the string; if it
    contains a comma, split on commas and return
    (`parts[0].strip()`, `parts[-1].strip()`); otherwise return the
    stripped string and `"N/A"`.  The Python `try` body cannot raise for
    a string argument (upstream `astype(str)` guarantees a string), so
    the `except` fallback `("N/A", "N/A")` is unreachable and the
    function is total as embedded. -/
def extract_city_state (location_str : String) : String × String :=
  let s := pyStrip location_str.toList
  if ',' ∈ s then
    let parts := splitComma s
    (String.mk (pyStrip (parts.headD [])), String.mk (pyStrip (parts.getLastD [])))
  else
    (String.mk s, "N/A")

example : extract_city_state "Seattle, WA" = ("Seattle", "WA") := by decide
example : extract_city_state "Paris, Ile-de-France, FR" = ("Paris", "FR") := by decide
example : extract_city_state "Remote" = ("Remote", "N/A") := by decide
example : extract_city_state "  New York  " = ("New York", "N/A") := by decide
example : extract_city_state " a , b , c " = ("a", "c") := by decide
example : extract_city_state "," = ("", "") := by decide

/-- Boolean predicate for "is not a comma", used to state the spec-side
    notions "text before the first comma" / "text after the last comma". -/
def notComma (c : Char) : Bool := c != ','

theorem notComma_eq_false {c : Char} : notComma c = false ↔ c = ',' := by
  simp [notComma]

theorem notComma_eq_true {c : Char} : notComma c = true ↔ c ≠ ',' := by
  simp [notComma]

theorem isSpaceChar_comma : isSpaceChar ',' = false := by decide

theorem ws_implies_notComma : ∀ c, isSpaceChar c = true → notComma c = true := by
  intro c h
  rw [notComma_eq_true]
  intro hc
  rw [hc] at h
  exact absurd h (by decide)

theorem splitComma_ne_nil (s : List Char) : splitComma s ≠ [] := by
  cases s with
  | nil => simp [splitComma]
  | cons c rest =>
    by_cases hc : c = ','
    · simp [splitComma, hc]
    · cases hsp : splitComma rest with
      | nil => simp [splitComma, hc, hsp]
      | cons p ps => simp [splitComma, hc, hsp]

/-- `parts[0]` of a Python comma split is the text before the first
    comma (the whole string when it has no comma). -/
theorem splitComma_headD (s : List Char) :
    (splitComma s).headD [] = s.takeWhile notComma := by
  induction s with
  | nil => rfl
  | cons c rest ih =>
    by_cases hc : c = ','
    · subst hc
      simp [splitComma, List.takeWhile_cons, notComma]
    · cases hsp : splitComma rest with
      | nil => exact absurd hsp (splitComma_ne_nil rest)
      | cons p ps =>
        rw [hsp] at ih
        simp only [List.headD_cons] at ih
        simp [splitComma, hc, hsp, List.takeWhile_cons, notComma, ih]

/-- A string with no comma splits into the singleton list holding it. -/
theorem splitComma_of_not_mem {s : List Char} (h : ',' ∉ s) : splitComma s = [s] := by
  induction s with
  | nil => rfl
  | cons c rest ih =>
    have hc : ¬ c = ',' := fun hcc => h (hcc ▸ List.mem_cons_self c rest)
    have hr : ',' ∉ rest := fun hm => h (List.mem_cons_of_mem c hm)
    simp [splitComma, hc, ih hr]

/-- A string containing a comma splits into at least two parts. -/
theorem two_le_length_splitComma {s : List Char} (h : ',' ∈ s) :
    2 ≤ (splitComma s).length := by
  induction s with
  | nil => cases h
  | cons c rest ih =>
    by_cases hc : c = ','
    · have hstep : splitComma (c :: rest) = [] :: splitComma rest := by
        simp [splitComma, hc]
      have h1 : 1 ≤ (splitComma rest).length :=
        List.length_pos.mpr (splitComma_ne_nil rest)
      rw [hstep, List.length_cons]
      omega
    · have hr : ',' ∈ rest := by
        cases List.mem_cons.mp h with
        | inl h0 => exact absurd h0.symm hc
        | inr h0 => exact h0
      cases hsp : splitComma rest with
      | nil => exact absurd hsp (splitComma_ne_nil rest)
      | cons p ps =>
        have h2 := ih hr
        rw [hsp, List.length_cons] at h2
        have hstep : splitComma (c :: rest) = (c :: p) :: ps := by
          simp [splitComma, hc, hsp]
        rw [hstep, List.length_cons]
        omega

theorem takeWhile_append_not_all {p : Char → Bool} {a : Char} (l l' : List Char)
    (hm : a ∈ l) (hp : p a = false) : (l ++ l').takeWhile p = l.takeWhile p := by
  induction l with
  | nil => cases hm
  | cons x xs ih =>
    by_cases hx : p x
    · have hm' : a ∈ xs := by
        cases List.mem_cons.mp hm with
        | inl h0 => rw [h0] at hp; rw [hp] at hx; cases hx
        | inr h0 => exact h0
      simp [List.takeWhile_cons, hx, ih hm']
    · simp [List.takeWhile_cons, hx]

theorem dropWhile_append_not_all {p : Char → Bool} {a : Char} (l l' : List Char)
    (hm : a ∈ l) (hp : p a = false) : (l ++ l').dropWhile p = l.dropWhile p ++ l' := by
  induction l with
  | nil => cases hm
  | cons x xs ih =>
    by_cases hx : p x
    · have hm' : a ∈ xs := by
        cases List.mem_cons.mp hm with
        | inl h0 => rw [h0] at hp; rw [hp] at hx; cases hx
        | inr h0 => exact h0
      simp [List.dropWhile_cons, hx, ih hm']
    · simp [List.dropWhile_cons, hx]

theorem takeWhile_append_singleton_neg {p : Char → Bool} {c : Char} (l : List Char)
    (hp : p c = false) : (l ++ [c]).takeWhile p = l.takeWhile p := by
  by_cases hall : ∀ a ∈ l, p a = true
  · rw [List.takeWhile_append_of_pos hall, List.takeWhile_eq_self_iff.mpr hall]
    simp [List.takeWhile_cons, hp]
  · push_neg at hall
    obtain ⟨a, ham, hpa⟩ := hall
    exact takeWhile_append_not_all l [c] ham (Bool.eq_false_iff.mpr hpa)

/-- `parts[-1]` of a Python comma split is the text after the last
    comma (the whole string when it has no comma). -/
theorem splitComma_getLastD (s : List Char) :
    (splitComma s).getLastD [] = (s.reverse.takeWhile notComma).reverse := by
  induction s with
  | nil => rfl
  | cons c rest ih =>
    by_cases hc : c = ','
    · subst hc
      have hstep : splitComma (',' :: rest) = [] :: splitComma rest := by
        simp [splitComma]
      rw [hstep, List.getLastD_cons]
      have hdrop : ((',' :: rest).reverse.takeWhile notComma)
          = rest.reverse.takeWhile notComma := by
        rw [List.reverse_cons]
        exact takeWhile_append_singleton_neg rest.reverse (notComma_eq_false.mpr rfl)
      rw [hdrop]
      exact ih
    · by_cases hr : ',' ∈ rest
      · cases hsp : splitComma rest with
        | nil => exact absurd hsp (splitComma_ne_nil rest)
        | cons p ps =>
          have hlen := two_le_length_splitComma hr
          rw [hsp] at hlen
          have hps : ps ≠ [] := by
            cases ps with
            | nil => simp at hlen
            | cons q qs => simp
          have hstep : splitComma (c :: rest) = (c :: p) :: ps := by
            simp [splitComma, hc, hsp]
          rw [hstep, List.getLastD_cons]
          rw [hsp, List.getLastD_cons] at ih
          have hdefault : ps.getLastD (c :: p) = ps.getLastD p := by
            cases ps with
            | nil => exact absurd rfl hps
            | cons q qs => rw [List.getLastD_cons, List.getLastD_cons]
          rw [hdefault, ih]
          have hmr : ',' ∈ rest.reverse := List.mem_reverse.mpr hr
          rw [List.reverse_cons,
            takeWhile_append_not_all rest.reverse [c] hmr (notComma_eq_false.mpr rfl)]
      · have hsp := splitComma_of_not_mem hr
        have hstep : splitComma (c :: rest) = [c :: rest] := by
          simp [splitComma, hc, hsp]
        rw [hstep]
        have hall : ∀ a ∈ rest.reverse, notComma a = true := by
          intro a ham
          rw [notComma_eq_true]
          intro haq
          exact hr (haq ▸ List.mem_reverse.mp ham)
        rw [List.reverse_cons, List.takeWhile_append_of_pos hall]
        have hcn : notComma c = true := notComma_eq_true.mpr hc
        simp [List.takeWhile_cons, hcn, List.getLastD_cons]

theorem mem_dropWhile_of_neg {p : Char → Bool} {a : Char} (hp : p a = false) :
    ∀ l : List Char, a ∈ l.dropWhile p ↔ a ∈ l := by
  intro l
  induction l with
  | nil => simp
  | cons x xs ih =>
    by_cases hx : p x
    · rw [List.dropWhile_cons_of_pos hx, ih, List.mem_cons]
      constructor
      · exact Or.inr
      · intro h0
        cases h0 with
        | inl h1 => rw [h1] at hp; rw [hp] at hx; cases hx
        | inr h1 => exact h1
    · rw [List.dropWhile_cons_of_neg hx]

theorem mem_pyStrip_of_neg {a : Char} (hp : isSpaceChar a = false) (s : List Char) :
    a ∈ pyStrip s ↔ a ∈ s := by
  unfold pyStrip trimRight trimLeft
  rw [List.mem_reverse, mem_dropWhile_of_neg hp, List.mem_reverse,
    mem_dropWhile_of_neg hp]

theorem dropWhile_head_neg {p : Char → Bool} :
    ∀ {l : List Char} {x : Char} {xs : List Char}, l.dropWhile p = x :: xs → p x = false := by
  intro l
  induction l with
  | nil => intro x xs h; cases h
  | cons c cs ih =>
    intro x xs h
    by_cases hc : p c
    · rw [List.dropWhile_cons_of_pos hc] at h
      exact ih h
    · rw [List.dropWhile_cons_of_neg hc] at h
      cases h
      exact Bool.eq_false_iff.mpr hc

theorem pyStrip_ws_prefix {w x : List Char} (hw : ∀ c ∈ w, isSpaceChar c = true) :
    pyStrip (w ++ x) = pyStrip x := by
  unfold pyStrip trimLeft
  rw [List.dropWhile_append_of_pos hw]

theorem trimRight_ws_suffix {x w : List Char} (hw : ∀ c ∈ w, isSpaceChar c = true) :
    trimRight (x ++ w) = trimRight x := by
  unfold trimRight
  rw [List.reverse_append, List.dropWhile_append_of_pos (by simpa using hw)]

theorem pyStrip_ws_suffix {x w : List Char} (hw : ∀ c ∈ w, isSpaceChar c = true) :
    pyStrip (x ++ w) = pyStrip x := by
  by_cases hall : ∀ c ∈ x, isSpaceChar c = true
  · have h1 : trimLeft (x ++ w) = [] := by
      unfold trimLeft
      rw [List.dropWhile_append_of_pos hall, List.dropWhile_eq_nil_iff.mpr hw]
    have h2 : trimLeft x = [] := by
      unfold trimLeft
      rw [List.dropWhile_eq_nil_iff.mpr hall]
    unfold pyStrip
    rw [h1, h2]
  · push_neg at hall
    obtain ⟨a, ham, hpa⟩ := hall
    have hstep : trimLeft (x ++ w) = trimLeft x ++ w :=
      dropWhile_append_not_all x w ham (Bool.eq_false_iff.mpr hpa)
    unfold pyStrip
    rw [hstep]
    exact trimRight_ws_suffix hw

/-- Decomposition of a string into its right-stripped core and its
    all-whitespace suffix. -/
theorem trimRight_decomposition (s : List Char) :
    s = trimRight s ++ (s.reverse.takeWhile isSpaceChar).reverse ∧
      ∀ c ∈ (s.reverse.takeWhile isSpaceChar).reverse, isSpaceChar c = true := by
  constructor
  · conv_lhs => rw [← List.reverse_reverse s, ← List.takeWhile_append_dropWhile
      (p := isSpaceChar) (l := s.reverse)]
    rw [List.reverse_append]
    rfl
  · intro c hc
    exact List.mem_takeWhile_imp (List.mem_reverse.mp hc)

/-- Master commutation lemma: stripping, then taking the longest prefix
    satisfying `q`, then stripping, is the same as doing it on the raw
    string — provided every whitespace character satisfies `q`. -/
theorem pyStrip_takeWhile_pyStrip {q : Char → Bool}
    (hq : ∀ c, isSpaceChar c = true → q c = true) (s : List Char) :
    pyStrip ((pyStrip s).takeWhile q) = pyStrip (s.takeWhile q) := by
  have hs : s = s.takeWhile isSpaceChar ++ s.dropWhile isSpaceChar :=
    (List.takeWhile_append_dropWhile isSpaceChar s).symm
  have hw1 : ∀ c ∈ s.takeWhile isSpaceChar, isSpaceChar c = true :=
    fun c hc => List.mem_takeWhile_imp hc
  have hq1 : ∀ c ∈ s.takeWhile isSpaceChar, q c = true :=
    fun c hc => hq c (hw1 c hc)
  have hrhs : pyStrip (s.takeWhile q) = pyStrip ((s.dropWhile isSpaceChar).takeWhile q) := by
    conv_lhs => rw [hs]
    rw [List.takeWhile_append_of_pos hq1, pyStrip_ws_prefix hw1]
  have hlhs : pyStrip s = trimRight (s.dropWhile isSpaceChar) := rfl
  rw [hrhs, hlhs]
  set r := s.dropWhile isSpaceChar with hr
  obtain ⟨hdec, hwsuf⟩ := trimRight_decomposition r
  by_cases hall : ∀ c ∈ trimRight r, q c = true
  · have h1 : (trimRight r).takeWhile q = trimRight r := List.takeWhile_eq_self_iff.mpr hall
    have hq2 : ∀ c ∈ (r.reverse.takeWhile isSpaceChar).reverse, q c = true :=
      fun c hc => hq c (hwsuf c hc)
    have h2 : r.takeWhile q = trimRight r ++ (r.reverse.takeWhile isSpaceChar).reverse := by
      conv_lhs => rw [hdec]
      rw [List.takeWhile_append_of_pos hall, List.takeWhile_eq_self_iff.mpr hq2]
    rw [h1, h2, pyStrip_ws_suffix hwsuf]
  · push_neg at hall
    obtain ⟨a, ham, hpa⟩ := hall
    have h2 : r.takeWhile q = (trimRight r).takeWhile q := by
      conv_lhs => rw [hdec]
      exact takeWhile_append_not_all _ _ ham (Bool.eq_false_iff.mpr hpa)
    rw [h2]

/-- Stripping commutes with string reversal. -/
theorem pyStrip_reverse (s : List Char) : (pyStrip s).reverse = pyStrip s.reverse := by
  have hlhs : (pyStrip s).reverse = (s.dropWhile isSpaceChar).reverse.dropWhile isSpaceChar := by
    unfold pyStrip trimRight trimLeft
    rw [List.reverse_reverse]
  cases hd : s.dropWhile isSpaceChar with
  | nil =>
    have hws : ∀ c ∈ s, isSpaceChar c = true := List.dropWhile_eq_nil_iff.mp hd
    have hws' : ∀ c ∈ s.reverse, isSpaceChar c = true :=
      fun c hc => hws c (List.mem_reverse.mp hc)
    have h1 : s.reverse.dropWhile isSpaceChar = [] := List.dropWhile_eq_nil_iff.mpr hws'
    unfold pyStrip trimRight trimLeft
    rw [hd, h1]
    rfl
  | cons x d =>
    have hx : isSpaceChar x = false := dropWhile_head_neg hd
    have hsplit : s = s.takeWhile isSpaceChar ++ (x :: d) := by
      conv_lhs => rw [← List.takeWhile_append_dropWhile (p := isSpaceChar) (l := s)]
      rw [hd]
    have hw1 : ∀ c ∈ (s.takeWhile isSpaceChar).reverse, isSpaceChar c = true :=
      fun c hc => List.mem_takeWhile_imp (List.mem_reverse.mp hc)
    have hmx : x ∈ (x :: d).reverse := List.mem_reverse.mpr (List.mem_cons_self x d)
    have hrev : s.reverse.dropWhile isSpaceChar
        = (x :: d).reverse.dropWhile isSpaceChar ++ (s.takeWhile isSpaceChar).reverse := by
      conv_lhs => rw [hsplit]
      rw [List.reverse_append]
      exact dropWhile_append_not_all _ _ hmx hx
    set e := (x :: d).reverse.dropWhile isSpaceChar with he
    have hxe : ∃ t : List Char, e = t ++ [x] := by
      rw [he, List.reverse_cons]
      by_cases hall : ∀ c ∈ d.reverse, isSpaceChar c = true
      · refine ⟨[], ?_⟩
        rw [List.dropWhile_append_of_pos hall, List.dropWhile_cons_of_neg
          (by rw [hx]; exact Bool.false_ne_true), List.nil_append]
      · push_neg at hall
        obtain ⟨a, ham, hpa⟩ := hall
        refine ⟨d.reverse.dropWhile isSpaceChar, ?_⟩
        exact dropWhile_append_not_all _ _ ham (Bool.eq_false_iff.mpr hpa)
    obtain ⟨t, ht⟩ := hxe
    have hcons : e.reverse = x :: t.reverse := by
      rw [ht]
      simp
    have hestable : e.reverse.dropWhile isSpaceChar = e.reverse := by
      rw [hcons, List.dropWhile_cons_of_neg (by rw [hx]; exact Bool.false_ne_true)]
    have hrhs : pyStrip s.reverse = e := by
      unfold pyStrip trimRight trimLeft
      rw [hrev, List.reverse_append, List.reverse_reverse,
        List.dropWhile_append_of_pos (by simpa using hw1), hestable, List.reverse_reverse]
    rw [hrhs, hlhs, hd]

/-- C2: for every location string, if it contains at least one comma the
    derived city equals the trimmed text before the first comma and the
    derived state equals the trimmed text after the last comma (middle
    segments of multi-comma strings are discarded); if it contains no
    comma, the city is the entire trimmed string and the state is "N/A".
    The derivation is total on strings (the Python `except` fallback is
    unreachable because the value was coerced to `str` upstream), so no
    error can propagate. -/
theorem extract_city_state_matches_spec (loc : String) :
    (',' ∈ loc.toList →
      extract_city_state loc =
        (String.mk (pyStrip (loc.toList.takeWhile notComma)),
         String.mk (pyStrip ((loc.toList.reverse.takeWhile notComma).reverse)))) ∧
    (',' ∉ loc.toList →
      extract_city_state loc = (String.mk (pyStrip loc.toList), "N/A")) := by
  constructor
  · intro hmem
    have hmem' : ',' ∈ pyStrip loc.toList :=
      (mem_pyStrip_of_neg isSpaceChar_comma _).mpr hmem
    have hif : extract_city_state loc =
        (String.mk (pyStrip ((splitComma (pyStrip loc.toList)).headD [])),
         String.mk (pyStrip ((splitComma (pyStrip loc.toList)).getLastD []))) := by
      unfold extract_city_state
      rw [if_pos hmem']
    rw [hif, splitComma_headD, splitComma_getLastD]
    have hcity : pyStrip ((pyStrip loc.toList).takeWhile notComma)
        = pyStrip (loc.toList.takeWhile notComma) :=
      pyStrip_takeWhile_pyStrip ws_implies_notComma loc.toList
    have hstate : pyStrip (((pyStrip loc.toList).reverse.takeWhile notComma).reverse)
        = pyStrip ((loc.toList.reverse.takeWhile notComma).reverse) := by
      rw [pyStrip_reverse loc.toList,
        ← pyStrip_reverse ((pyStrip loc.toList.reverse).takeWhile notComma),
        pyStrip_takeWhile_pyStrip ws_implies_notComma loc.toList.reverse,
        pyStrip_reverse (loc.toList.reverse.takeWhile notComma)]
    rw [hcity, hstate]
  · intro hmem
    have hmem' : ',' ∉ pyStrip loc.toList :=
      fun h0 => hmem ((mem_pyStrip_of_neg isSpaceChar_comma _).mp h0)
    unfold extract_city_state
    rw [if_neg hmem']

/-- Witness: the city/state characterisation evaluated at concrete
    locations with and without a comma. -/
theorem extract_city_state_matches_spec_witness :
    extract_city_state "Seattle, WA" = ("Seattle", "WA") ∧
    extract_city_state "Remote" = ("Remote", "N/A") := by
  constructor
  · have h := (extract_city_state_matches_spec "Seattle, WA").1 (by decide)
    rw [h]
    decide
  · have h := (extract_city_state_matches_spec "Remote").2 (by decide)
    rw [h]
    decide

/-- One cell of a raw job record as seen by the normalization block.
    `absent` models a key missing from the record (pandas inserts `NaN`,
    or the whole column is created as "N/A" when no record has the key);
    `null` models an explicit null/NaN value (replaced by `fillna`);
    `val s` models a present value, given by its `astype(str)` text
    (steps 1-4 of the normalizer make every cell textual, so a cell's
    only observable content downstream is its string form). -/
inductive Cell
  | absent : Cell
  | null : Cell
  | val (s : String) : Cell
deriving DecidableEq, Repr

/-- A raw job record restricted to the ten API-sourced columns.  Any
    extra keys a record may carry are dropped by the projection
    `df = df[required_columns]` before every downstream step, so they
    cannot influence the normalizer's output and are not modelled. -/
structure RawJob where
  id : Cell
  title : Cell
  company : Cell
  location : Cell
  snippet : Cell
  salary : Cell
  type : Cell
  source : Cell
  link : Cell
  updated : Cell
deriving DecidableEq, Repr

/-- A normalized output row: all twelve columns, every value textual. -/
structure JobRow where
  id : String
  title : String
  company : String
  location : String
  city : String
  state : String
  snippet : String
  salary : String
  type : String
  source : String
  link : String
  updated : String
deriving DecidableEq, Repr

/-- Steps 1-4 of the normalizer collapsed to one cell: a missing column
    is created as "N/A", a null cell is `fillna`-replaced by "N/A", and
    a present value keeps its textual form. -/
def reconcile : Cell → String
  | .absent => "N/A"
  | .null => "N/A"
  | .val s => s

/-- Normalize one record: reconcile the ten API columns and derive
    `city`/`state` from the reconciled `location` text. -/
def normalizeRow (j : RawJob) : JobRow :=
  let loc := reconcile j.location
  let cs := extract_city_state loc
  { id := reconcile j.id
    title := reconcile j.title
    company := reconcile j.company
    location := loc
    city := cs.1
    state := cs.2
    snippet := reconcile j.snippet
    salary := reconcile j.salary
    type := reconcile j.type
    source := reconcile j.source
    link := reconcile j.link
    updated := reconcile j.updated }

/-- The duplicate key used by `drop_duplicates(subset=['id', 'title', 'company'])`. -/
def jobKey (r : JobRow) : String × String × String := (r.id, r.title, r.company)

/-- `drop_duplicates(..., keep='first')`: keep a row iff its key was not
    seen earlier, scanning left to right. -/
def dedupFrom (seen : List (String × String × String)) : List JobRow → List JobRow
  | [] => []
  | r :: rest =>
    if jobKey r ∈ seen then dedupFrom seen rest
    else r :: dedupFrom (jobKey r :: seen) rest

/-- `df.drop_duplicates(subset=['id', 'title', 'company'], keep='first')`. -/
def drop_duplicates (l : List JobRow) : List JobRow := dedupFrom [] l

/-- The full normalization block (steps 1-7): per-record reconciliation
    and city/state derivation, then keyed deduplication keeping the
    first occurrence; the column order is fixed by `JobRow`/`rowCells`. -/
def normalize (jobs : List RawJob) : List JobRow :=
  drop_duplicates (jobs.map normalizeRow)

/-- The final column order fixed by the scripts. -/
def final_columns : List String :=
  ["id", "title", "company", "location", "city", "state",
   "snippet", "salary", "type", "source", "link", "updated"]

/-- A row laid out as (column name, cell text) pairs in output order. -/
def rowCells (r : JobRow) : List (String × String) :=
  [("id", r.id), ("title", r.title), ("company", r.company),
   ("location", r.location), ("city", r.city), ("state", r.state),
   ("snippet", r.snippet), ("salary", r.salary), ("type", r.type),
   ("source", r.source), ("link", r.link), ("updated", r.updated)]

/-- Reading a normalized output row back in as an input record: all ten
    API columns are present with their textual values (the extra
    `city`/`state` columns of the output are dropped again by the
    projection step, hence not part of the raw record model). -/
def rowToRaw (r : JobRow) : RawJob :=
  { id := .val r.id
    title := .val r.title
    company := .val r.company
    location := .val r.location
    snippet := .val r.snippet
    salary := .val r.salary
    type := .val r.type
    source := .val r.source
    link := .val r.link
    updated := .val r.updated }

theorem dedupFrom_sublist (seen : List (String × String × String)) :
    ∀ l : List JobRow, (dedupFrom seen l).Sublist l := by
  intro l
  induction l generalizing seen with
  | nil => exact List.Sublist.refl []
  | cons r rest ih =>
    by_cases h : jobKey r ∈ seen
    · rw [dedupFrom, if_pos h]
      exact (ih seen).cons r
    · rw [dedupFrom, if_neg h]
      exact (ih (jobKey r :: seen)).cons₂ r

theorem dedupFrom_key_not_seen {seen : List (String × String × String)} :
    ∀ {l : List JobRow} {r : JobRow}, r ∈ dedupFrom seen l → jobKey r ∉ seen := by
  intro l
  induction l generalizing seen with
  | nil => intro r h; cases h
  | cons x rest ih =>
    intro r h
    by_cases hx : jobKey x ∈ seen
    · rw [dedupFrom, if_pos hx] at h
      exact ih h
    · rw [dedupFrom, if_neg hx] at h
      cases List.mem_cons.mp h with
      | inl h0 => rw [h0]; exact hx
      | inr h0 =>
        have h1 := ih h0
        intro h2
        exact h1 (List.mem_cons_of_mem _ h2)

theorem dedupFrom_keys_nodup (seen : List (String × String × String)) :
    ∀ l : List JobRow, ((dedupFrom seen l).map jobKey).Nodup := by
  intro l
  induction l generalizing seen with
  | nil => exact List.nodup_nil
  | cons x rest ih =>
    by_cases hx : jobKey x ∈ seen
    · rw [dedupFrom, if_pos hx]
      exact ih seen
    · rw [dedupFrom, if_neg hx, List.map_cons, List.nodup_cons]
      refine ⟨?_, ih (jobKey x :: seen)⟩
      intro hmem
      obtain ⟨r, hr, hkey⟩ := List.mem_map.mp hmem
      exact dedupFrom_key_not_seen hr (hkey ▸ List.mem_cons_self _ _)

theorem dedupFrom_find_first {seen : List (String × String × String)} :
    ∀ {l : List JobRow} {r : JobRow}, r ∈ dedupFrom seen l →
      l.find? (fun x => decide (jobKey x = jobKey r)) = some r := by
  intro l
  induction l generalizing seen with
  | nil => intro r h; cases h
  | cons x rest ih =>
    intro r h
    by_cases hx : jobKey x ∈ seen
    · rw [dedupFrom, if_pos hx] at h
      have hne : jobKey x ≠ jobKey r := by
        intro heq
        exact dedupFrom_key_not_seen h (heq ▸ hx)
      rw [List.find?_cons_of_neg _ (by simpa using hne)]
      exact ih h
    · rw [dedupFrom, if_neg hx] at h
      cases List.mem_cons.mp h with
      | inl h0 =>
        subst h0
        rw [List.find?_cons_of_pos _ (by simp)]
      | inr h0 =>
        have hne : jobKey x ≠ jobKey r := by
          intro heq
          exact dedupFrom_key_not_seen h0 (heq ▸ List.mem_cons_self _ _)
        rw [List.find?_cons_of_neg _ (by simpa using hne)]
        exact ih h0

theorem dedupFrom_covers {seen : List (String × String × String)} :
    ∀ {l : List JobRow} {x : JobRow}, x ∈ l → jobKey x ∉ seen →
      ∃ r ∈ dedupFrom seen l, jobKey r = jobKey x := by
  intro l
  induction l generalizing seen with
  | nil => intro x h; cases h
  | cons y rest ih =>
    intro x hx hseen
    by_cases hy : jobKey y ∈ seen
    · rw [dedupFrom, if_pos hy]
      cases List.mem_cons.mp hx with
      | inl h0 => rw [h0] at hseen; exact absurd hy hseen
      | inr h0 => exact ih h0 hseen
    · rw [dedupFrom, if_neg hy]
      by_cases hkey : jobKey x = jobKey y
      · exact ⟨y, List.mem_cons_self _ _, hkey.symm⟩
      · have h0 : x ∈ rest := by
          cases List.mem_cons.mp hx with
          | inl h1 => rw [h1] at hkey; exact absurd rfl hkey
          | inr h1 => exact h1
        have hseen' : jobKey x ∉ jobKey y :: seen := by
          intro h1
          cases List.mem_cons.mp h1 with
          | inl h2 => exact hkey h2
          | inr h2 => exact hseen h2
        obtain ⟨r, hr, hrk⟩ := ih h0 hseen'
        exact ⟨r, List.mem_cons_of_mem _ hr, hrk⟩

theorem dedupFrom_eq_self {seen : List (String × String × String)} :
    ∀ {l : List JobRow}, (l.map jobKey).Nodup → (∀ x ∈ l, jobKey x ∉ seen) →
      dedupFrom seen l = l := by
  intro l
  induction l generalizing seen with
  | nil => intro _ _; rfl
  | cons x rest ih =>
    intro hnodup hout
    have hx : jobKey x ∉ seen := hout x (List.mem_cons_self _ _)
    rw [dedupFrom, if_neg hx]
    rw [List.map_cons, List.nodup_cons] at hnodup
    have hrest : ∀ y ∈ rest, jobKey y ∉ jobKey x :: seen := by
      intro y hy h1
      cases List.mem_cons.mp h1 with
      | inl h2 => exact hnodup.1 (h2 ▸ List.mem_map_of_mem jobKey hy)
      | inr h2 => exact hout y (List.mem_cons_of_mem _ hy) h2
    rw [ih hnodup.2 hrest]

/-- A concrete raw record (duplicate key of `sampleJob2`). -/
def sampleJob1 : RawJob :=
  { id := .val "1", title := .val "Analyst", company := .val "Acme"
    location := .val "Seattle, WA", snippet := .val "first", salary := .val "100"
    type := .val "Full-time", source := .val "boardA", link := .val "l1"
    updated := .val "d1" }

/-- A concrete raw record carrying the same (id, title, company) key as
    `sampleJob1` but different field values. -/
def sampleJob2 : RawJob :=
  { id := .val "1", title := .val "Analyst", company := .val "Acme"
    location := .val "Boston, MA", snippet := .val "second", salary := .val "200"
    type := .val "Part-time", source := .val "boardB", link := .val "l2"
    updated := .val "d2" }

/-- A concrete raw record with a distinct key and some missing/null cells. -/
def sampleJob3 : RawJob :=
  { id := .val "2", title := .val "Engineer", company := .val "Acme"
    location := .absent, snippet := .null, salary := .val "300"
    type := .val "Full-time", source := .val "boardA", link := .val "l3"
    updated := .val "d3" }

/-- A concrete accumulated list containing a duplicate key. -/
def sampleDupJobs : List RawJob := [sampleJob1, sampleJob2, sampleJob3]

/-- C3: for every accumulated job list, the normalizer output is a
    subsequence of the per-record normalization (order of first
    occurrences preserved), each output row is the first row of the
    normalized input carrying its (id, title, company) key (so it has
    the first-seen occurrence's field values), every input key is
    represented, and no key occurs twice — together: exactly one output
    row per distinct key, the first-seen one, in first-seen order. -/
theorem normalizer_dedup_keeps_first_occurrence (jobs : List RawJob) :
    (normalize jobs).Sublist (jobs.map normalizeRow) ∧
    (∀ r ∈ normalize jobs,
      (jobs.map normalizeRow).find? (fun x => decide (jobKey x = jobKey r)) = some r) ∧
    (∀ x ∈ jobs.map normalizeRow, ∃ r ∈ normalize jobs, jobKey r = jobKey x) ∧
    ((normalize jobs).map jobKey).Nodup := by
  refine ⟨dedupFrom_sublist [] _, ?_, ?_, dedupFrom_keys_nodup [] _⟩
  · intro r hr
    exact dedupFrom_find_first hr
  · intro x hx
    exact dedupFrom_covers hx (List.not_mem_nil _)

/-- Witness: on a concrete list whose first two records share a key, the
    duplicate-key row found in the output is the first-seen record. -/
theorem normalizer_dedup_keeps_first_occurrence_witness :
    (sampleDupJobs.map normalizeRow).find?
        (fun x => decide (jobKey x = jobKey (normalizeRow sampleJob1)))
      = some (normalizeRow sampleJob1) ∧
    ((normalize sampleDupJobs).map jobKey).Nodup :=
  ⟨(normalizer_dedup_keeps_first_occurrence sampleDupJobs).2.1
      (normalizeRow sampleJob1) (by decide),
   (normalizer_dedup_keeps_first_occurrence sampleDupJobs).2.2.2⟩

/-- C8: schema invariant of every normalizer output — each row consists
    of exactly the twelve columns in the fixed order (with every cell a
    string, by the type of `rowCells`), and no row repeats the
    (id, title, company) key of an earlier row. -/
theorem normalizer_schema_invariant (jobs : List RawJob) :
    (∀ r ∈ normalize jobs, (rowCells r).map Prod.fst = final_columns) ∧
    ((normalize jobs).map jobKey).Nodup :=
  ⟨fun _ _ => rfl, dedupFrom_keys_nodup [] _⟩

/-- Witness: the schema invariant evaluated on a concrete output row of
    a concrete job list. -/
theorem normalizer_schema_invariant_witness :
    (rowCells (normalizeRow sampleJob1)).map Prod.fst = final_columns ∧
    ((normalize sampleDupJobs).map jobKey).Nodup :=
  ⟨(normalizer_schema_invariant sampleDupJobs).1 (normalizeRow sampleJob1) (by decide),
   (normalizer_schema_invariant sampleDupJobs).2⟩

/-- C9: the normalizer is idempotent — reading its output back in as
    input records (all ten API columns present with their textual
    values) and normalizing again reproduces the same table: schema
    defaulting, null replacement and text coercion are no-ops on
    present string cells, the city/state derivation recomputes the same
    values from the unchanged location text, and deduplication is a
    no-op on a key-nodup table. -/
theorem normalizer_idempotent (jobs : List RawJob) :
    normalize ((normalize jobs).map rowToRaw) = normalize jobs := by
  have hmem : ∀ r ∈ normalize jobs, normalizeRow (rowToRaw r) = r := by
    intro r hr
    have hr2 : r ∈ jobs.map normalizeRow :=
      (dedupFrom_sublist [] (jobs.map normalizeRow)).subset hr
    obtain ⟨raw, _, hraw⟩ := List.mem_map.mp hr2
    rw [← hraw]
    rfl
  show dedupFrom [] (((normalize jobs).map rowToRaw).map normalizeRow) = normalize jobs
  rw [List.map_map]
  have hmap : (normalize jobs).map (normalizeRow ∘ rowToRaw) = normalize jobs := by
    calc (normalize jobs).map (normalizeRow ∘ rowToRaw)
        = (normalize jobs).map id := List.map_congr_left hmem
      _ = normalize jobs := List.map_id _
  rw [hmap]
  exact dedupFrom_eq_self (dedupFrom_keys_nodup [] _)
    (fun x _ => List.not_mem_nil _)

/-- Outcome of one page's fetch attempt, classified by where in the
    per-page `try` body an exception (if any) is raised:
    * `transportError` — the exception is raised before the response
      body has been read and decoded (connection, request, getresponse,
      read or decode), so neither `api_response_received` nor
      `pages_fetched` is updated for this page;
    * `parseError` — the body was read (both flags updated) and a later
      statement of the body raised (`json.loads`, or anything up to the
      accumulation step);
    * `success jobs` — the page parsed; `jobs` is the `jobs` array of
      the response (`[]` when the key is absent). -/
inductive PageOutcome
  | transportError : PageOutcome
  | parseError : PageOutcome
  | success (jobs : List RawJob) : PageOutcome
deriving DecidableEq, Repr

/-- Why the pagination loop stopped (spec 4.2 state machine). -/
inductive StopReason
  | targetReached
  | emptyPage
  | pageError
  | maxPagesExhausted
deriving DecidableEq, Repr

/-- Running accumulator state of the pagination loop.  `calls` counts
    loop iterations entered, i.e. HTTP connections attempted — a
    model-level observation used to state "zero network calls". -/
structure Acc where
  allJobs : List RawJob
  apiResponseReceived : Bool
  pagesFetched : Nat
  calls : Nat
deriving DecidableEq, Repr

/-- Final state of the pagination loop plus the reason it stopped. -/
structure LoopResult where
  allJobs : List RawJob
  apiResponseReceived : Bool
  pagesFetched : Nat
  calls : Nat
  reason : StopReason
deriving DecidableEq, Repr

/-- One-to-one image of the `for page in range(1, max_pages + 1)` loop:
    `fuel` is the number of pages still allowed (including the current
    one).  A transport-level failure breaks without touching the flags;
    a parse-level failure breaks after setting them; an empty page
    breaks; otherwise the page's jobs are appended and the loop breaks
    when the target is met, else advances (the inter-page `time.sleep`
    has no observable effect in the model). -/
def loopGo (oracle : Nat → PageOutcome) (targetJobs : Nat) :
    Nat → Nat → Acc → LoopResult
  | 0, _, a => ⟨a.allJobs, a.apiResponseReceived, a.pagesFetched, a.calls, .maxPagesExhausted⟩
  | fuel + 1, page, a =>
    match oracle page with
    | .transportError =>
      ⟨a.allJobs, a.apiResponseReceived, a.pagesFetched, a.calls + 1, .pageError⟩
    | .parseError => ⟨a.allJobs, true, page, a.calls + 1, .pageError⟩
    | .success jobs =>
      if jobs.isEmpty then ⟨a.allJobs, true, page, a.calls + 1, .emptyPage⟩
      else
        let acc := a.allJobs ++ jobs
        if targetJobs ≤ acc.length then ⟨acc, true, page, a.calls + 1, .targetReached⟩
        else loopGo oracle targetJobs fuel (page + 1) ⟨acc, true, page, a.calls + 1⟩

/-- The whole pagination loop, pages 1 .. maxPages. -/
def runLoop (oracle : Nat → PageOutcome) (targetJobs maxPages : Nat) : LoopResult :=
  loopGo oracle targetJobs maxPages 1 ⟨[], false, 0, 0⟩

/-- `Config.validate_required_credentials`: raises `ValueError` naming
    `JOB_API_KEY` when the key is falsy (unset or empty string). -/
def validate_required_credentials (key : Option String) : Except String Unit :=
  match key with
  | none => .error "Missing required environment variables: JOB_API_KEY"
  | some s =>
    if s.isEmpty then .error "Missing required environment variables: JOB_API_KEY"
    else .ok ()

/-- Resolved search parameters (`Config` attributes with their defaults). -/
structure SearchConfig where
  searchKeywords : String
  searchLocation : String
  targetJobs : Nat
  maxPages : Nat
deriving Repr

/-- The default configuration: keywords "tableau", location "us",
    target 120 jobs, at most 4 pages. -/
def defaultConfig : SearchConfig := ⟨"tableau", "us", 120, 4⟩

/-- An unexpected exception reaching the outermost `try` (the code's
    defensive `PYTHON_ERROR` path), classified by phase: during
    parameter resolution before the loop (no parameter resolved, no
    page fetched), or during the post-loop DataFrame shaping (which
    only runs when jobs were collected). -/
inductive OuterExc
  | atConfig (ty msg : String)
  | atNormalize (ty msg : String)
deriving Repr

/-- What the entry point hands back to the host: either the normalized
    job table or a diagnostic table, the latter modelled as its column
    dictionary (column name paired with its list of cell values, one
    list entry per row). -/
inductive EntryResult
  | table (rows : List JobRow)
  | diag (columns : List (String × List String))
deriving Repr

/-- `pd.DataFrame(dict_of_lists)` length validation: all column arrays
    must have one common length, otherwise `ValueError` is raised. -/
def sameLengths : List (String × List String) → Bool
  | [] => true
  | (_, v) :: rest => rest.all (fun p => p.2.length == v.length)

/-- `pd.DataFrame` on a dict of column lists: succeeds iff the lists
    share one length. -/
def pdDataFrame (d : List (String × List String)) :
    Except String (List (String × List String)) :=
  if sameLengths d then .ok d else .error "All arrays must be of the same length"

/-- Python `str(bool)`. -/
def pyStrBool (b : Bool) : String := if b then "True" else "False"

/-- The CREDENTIAL_ERROR diagnostic dict of the Tableau script.  Note
    the `Setup_Steps` column holds THREE values while every other
    column holds one. -/
def credDiagnosticData (credMsg now : String) : List (String × List String) :=
  [("Status", ["CREDENTIAL_ERROR"]),
   ("Issue", ["Missing API credentials: " ++ credMsg]),
   ("Solution", ["Create .env file with JOB_API_KEY=your_api_key_here"]),
   ("Required_Files", [".env file with JOB_API_KEY"]),
   ("Setup_Steps", ["1. Copy .env.template to .env", "2. Add your Jooble API key",
                    "3. Refresh this data source"]),
   ("Documentation", ["See project README for complete setup instructions"]),
   ("Timestamp", [now])]

/-- The zero-jobs error message of the Tableau script, discriminating
    "connected but empty" from "never connected". -/
def zeroJobsMessage (cfg : SearchConfig) (apiReceived : Bool) (pagesFetched : Nat) : String :=
  if apiReceived then
    "API connected successfully but found 0 jobs for " ++ cfg.searchKeywords ++
      " in " ++ cfg.searchLocation ++ " across " ++ toString pagesFetched ++
      " pages. Try different search terms or location."
  else
    "Failed to connect to the Jooble API. Check internet connection and API key."

/-- The zero-jobs (Status=ERROR) diagnostic dict of the Tableau script. -/
def errorDiagnosticData (cfg : SearchConfig) (res : LoopResult) (now : String) :
    List (String × List String) :=
  [("Status", ["ERROR"]),
   ("Issue", [zeroJobsMessage cfg res.apiResponseReceived res.pagesFetched]),
   ("Search_Keywords", [cfg.searchKeywords]),
   ("Search_Location", [cfg.searchLocation]),
   ("Target_Jobs", [toString cfg.targetJobs]),
   ("Pages_Attempted", [toString cfg.maxPages]),
   ("Pages_Fetched", [toString res.pagesFetched]),
   ("API_Response_Received", [pyStrBool res.apiResponseReceived]),
   ("Jobs_Found", [toString res.allJobs.length]),
   ("Suggestion", ["Check search terms, location, internet connection, or API key"]),
   ("API_Key_Status", ["Loaded from environment variables"]),
   ("Timestamp", [now]),
   ("Next_Steps", ["Try broader search terms or different location codes (us, uk, ca, au, etc.)"])]

/-- The PYTHON_ERROR diagnostic dict of the Tableau script; the four
    `kw loc tg mp` strings echo the resolved parameters or their
    not-yet-resolved fallbacks. -/
def pythonErrorDiagnosticData (ty msg kw loc tg mp : String)
    (pagesFetched : Nat) (apiReceived : Bool) (jobsFound : Nat) (now : String) :
    List (String × List String) :=
  [("Status", ["PYTHON_ERROR"]),
   ("Error_Type", [ty]),
   ("Error_Message", [msg]),
   ("Search_Keywords", [kw]),
   ("Search_Location", [loc]),
   ("Target_Jobs", [tg]),
   ("Pages_Attempted", [mp]),
   ("Pages_Fetched", [toString pagesFetched]),
   ("API_Response_Received", [pyStrBool apiReceived]),
   ("Jobs_Found", [toString jobsFound]),
   ("Troubleshooting", ["Check: 1) Internet connection, 2) API key validity, 3) Search parameters"]),
   ("Timestamp", [now]),
   ("Common_Solutions", ["Verify TabPy connection, check firewall settings, or try simpler search terms"]),
   ("Security_Note", ["API credentials now loaded securely from environment variables"])]

/-- Result of one run of the Tableau script body: the returned frame
    plus the number of HTTP connections attempted (a model-level
    observation used by the "zero network calls" claims). -/
structure TabOutcome where
  df : EntryResult
  networkCalls : Nat

/-- The Tableau analytics-extension script body.  `exc` injects an
    unexpected exception into the outer `try` (none in a normal run);
    `now` stands for `pd.Timestamp.now()`.  Note the credential-error
    path: building the CREDENTIAL_ERROR frame itself raises inside
    `pd.DataFrame` (the `Setup_Steps` column has 3 entries, the others
    1), the exception escapes the inner `except ValueError` handler and
    is caught by the outermost handler, which reports PYTHON_ERROR with
    the not-yet-resolved parameter fallbacks. -/
def tableauEntry (apiKey : Option String) (cfg : SearchConfig)
    (oracle : Nat → PageOutcome) (exc : Option OuterExc) (now : String) : TabOutcome :=
  match validate_required_credentials apiKey with
  | .error credMsg =>
    match pdDataFrame (credDiagnosticData credMsg now) with
    | .ok d => ⟨.diag d, 0⟩
    | .error e =>
      ⟨.diag (pythonErrorDiagnosticData "ValueError" e "Not set" "Not set" "120" "4"
        0 false 0 now), 0⟩
  | .ok _ =>
    match exc with
    | some (.atConfig ty msg) =>
      ⟨.diag (pythonErrorDiagnosticData ty msg "Not set" "Not set" "120" "4"
        0 false 0 now), 0⟩
    | some (.atNormalize ty msg) =>
      let res := runLoop oracle cfg.targetJobs cfg.maxPages
      if res.allJobs.isEmpty then ⟨.diag (errorDiagnosticData cfg res now), res.calls⟩
      else
        ⟨.diag (pythonErrorDiagnosticData ty msg cfg.searchKeywords cfg.searchLocation
          (toString cfg.targetJobs) (toString cfg.maxPages) res.pagesFetched
          res.apiResponseReceived res.allJobs.length now), res.calls⟩
    | none =>
      let res := runLoop oracle cfg.targetJobs cfg.maxPages
      if res.allJobs.isEmpty then ⟨.diag (errorDiagnosticData cfg res now), res.calls⟩
      else ⟨.table (normalize res.allJobs), res.calls⟩

/-- The CREDENTIAL_ERROR diagnostic dict of the VS Code script — here
    every column holds exactly one value, so `pd.DataFrame` succeeds. -/
def vsCredDiagnosticData (errMsg now : String) : List (String × List String) :=
  [("Status", ["CREDENTIAL_ERROR"]),
   ("Issue", [errMsg]),
   ("Solution", ["Create .env file with JOB_API_KEY=your_api_key_here"]),
   ("Required_Files", [".env file with JOB_API_KEY"]),
   ("Current_API_Key", ["Not loaded from environment"]),
   ("Timestamp", [now]),
   ("Next_Steps", ["1. Copy .env.template to .env, 2. Add your API key, 3. Run again"])]

/-- The zero-jobs error message of the VS Code script (the quote marks
    the f-string places around the keyword/location values are elided
    here; no claim depends on the message text). -/
def vsZeroJobsMessage (cfg : SearchConfig) (apiReceived : Bool) (pagesFetched : Nat) : String :=
  if apiReceived then
    "API connected successfully but found 0 jobs for " ++ cfg.searchKeywords ++
      " in " ++ cfg.searchLocation ++ " across " ++ toString pagesFetched ++
      " pages. Try different search terms or location."
  else
    "Failed to connect to the Jooble API. Check internet connection and API key."

/-- The zero-jobs (Status=ERROR) diagnostic dict of the VS Code script. -/
def vsErrorDiagnosticData (cfg : SearchConfig) (key : String) (res : LoopResult)
    (now : String) : List (String × List String) :=
  [("Status", ["ERROR"]),
   ("Issue", [vsZeroJobsMessage cfg res.apiResponseReceived res.pagesFetched]),
   ("Search_Keywords", [cfg.searchKeywords]),
   ("Search_Location", [cfg.searchLocation]),
   ("Target_Jobs", [toString cfg.targetJobs]),
   ("Pages_Attempted", [toString cfg.maxPages]),
   ("Pages_Fetched", [toString res.pagesFetched]),
   ("API_Response_Received", [pyStrBool res.apiResponseReceived]),
   ("Jobs_Found", [toString res.allJobs.length]),
   ("Suggestion", ["Check search terms, location, internet connection, or API key"]),
   ("API_Key_First_4_Chars", [key.take 4 ++ "..."]),
   ("Timestamp", [now]),
   ("Next_Steps", ["Try broader search terms or different location codes (us, uk, ca, au, etc.)"])]

/-- The PYTHON_ERROR diagnostic dict of the VS Code script. -/
def vsPythonErrorDiagnosticData (ty msg kw loc tg mp : String)
    (pagesFetched : Nat) (apiReceived : Bool) (jobsFound : Nat) (now : String) :
    List (String × List String) :=
  [("Status", ["PYTHON_ERROR"]),
   ("Error_Type", [ty]),
   ("Error_Message", [msg]),
   ("Search_Keywords", [kw]),
   ("Search_Location", [loc]),
   ("Target_Jobs", [tg]),
   ("Pages_Attempted", [mp]),
   ("Pages_Fetched", [toString pagesFetched]),
   ("API_Response_Received", [pyStrBool apiReceived]),
   ("Jobs_Found", [toString jobsFound]),
   ("Troubleshooting", ["Check: 1) Internet connection, 2) API key validity, 3) Search parameters"]),
   ("Timestamp", [now]),
   ("Common_Solutions", ["Verify TabPy connection, check firewall settings, or try simpler search terms"])]

/-- The tuple returned by `get_job_data`: the frame plus the diagnostic
    variables `error_message`, `api_response_received`, `pages_fetched`,
    `jobs_found_count`, plus the model-level connection count. -/
structure VsOutcome where
  df : EntryResult
  errorMessage : String
  apiResponseReceived : Bool
  pagesFetched : Nat
  jobsFoundCount : Nat
  networkCalls : Nat

/-- The VS Code `get_job_data` function; same pipeline as the Tableau
    body, but its credential diagnostic builds successfully and it
    returns the diagnostic variables alongside the frame. -/
def get_job_data (apiKey : Option String) (cfg : SearchConfig)
    (oracle : Nat → PageOutcome) (exc : Option OuterExc) (now : String) : VsOutcome :=
  match validate_required_credentials apiKey with
  | .error credMsg =>
    let errMsg := "Missing API credentials: " ++ credMsg
    match pdDataFrame (vsCredDiagnosticData errMsg now) with
    | .ok d => ⟨.diag d, errMsg, false, 0, 0, 0⟩
    | .error e =>
      ⟨.diag (vsPythonErrorDiagnosticData "ValueError" e "Not set" "Not set" "120" "4"
          0 false 0 now),
        "Python error: " ++ e, false, 0, 0, 0⟩
  | .ok _ =>
    let key := apiKey.getD ""
    match exc with
    | some (.atConfig ty msg) =>
      ⟨.diag (vsPythonErrorDiagnosticData ty msg "Not set" "Not set" "120" "4"
          0 false 0 now),
        "Python error: " ++ msg, false, 0, 0, 0⟩
    | some (.atNormalize ty msg) =>
      let res := runLoop oracle cfg.targetJobs cfg.maxPages
      if res.allJobs.isEmpty then
        ⟨.diag (vsErrorDiagnosticData cfg key res now),
          vsZeroJobsMessage cfg res.apiResponseReceived res.pagesFetched,
          res.apiResponseReceived, res.pagesFetched, res.allJobs.length, res.calls⟩
      else
        ⟨.diag (vsPythonErrorDiagnosticData ty msg cfg.searchKeywords cfg.searchLocation
            (toString cfg.targetJobs) (toString cfg.maxPages) res.pagesFetched
            res.apiResponseReceived res.allJobs.length now),
          "Python error: " ++ msg, res.apiResponseReceived, res.pagesFetched,
          res.allJobs.length, res.calls⟩
    | none =>
      let res := runLoop oracle cfg.targetJobs cfg.maxPages
      if res.allJobs.isEmpty then
        ⟨.diag (vsErrorDiagnosticData cfg key res now),
          vsZeroJobsMessage cfg res.apiResponseReceived res.pagesFetched,
          res.apiResponseReceived, res.pagesFetched, res.allJobs.length, res.calls⟩
      else
        ⟨.table (normalize res.allJobs), "No errors - script executed successfully",
          res.apiResponseReceived, res.pagesFetched, res.allJobs.length, res.calls⟩

/-- The column names of a returned frame. -/
def resultColumns : EntryResult → List String
  | .table _ => final_columns
  | .diag d => d.map Prod.fst

/-- Whether the returned frame is a diagnostic. -/
def isDiag : EntryResult → Bool
  | .table _ => false
  | .diag _ => true

/-- Whether every column of a diagnostic frame holds exactly one row
    (vacuously true for a job table). -/
def singleRowDiag : EntryResult → Bool
  | .table _ => true
  | .diag d => d.all (fun p => p.2.length == 1)

/-- Look up a diagnostic column by name. -/
def lookupD (d : List (String × List String)) (c : String) : Option (List String) :=
  (d.find? (fun p => p.1 == c)).map Prod.snd

/-- Look up a column of a returned frame (none on a job table). -/
def dfLookup : EntryResult → String → Option (List String)
  | .table _, _ => none
  | .diag d, c => lookupD d c

/-- C1: every execution of either entry point — whatever the
    credentials, page outcomes and injected exceptions — returns one
    table: a job table (which has the twelve-column schema and no
    `Status` column) or a diagnostic (which has a `Status` column and
    exactly one row in every column), never both; no exception escapes
    (both embedded entry points are total functions into `EntryResult`,
    mirroring the outermost catch-all handler). -/
theorem entry_points_always_return_single_table (apiKey : Option String)
    (cfg : SearchConfig) (oracle : Nat → PageOutcome) (exc : Option OuterExc)
    (now : String) :
    ((resultColumns (tableauEntry apiKey cfg oracle exc now).df).contains "Status"
        = isDiag (tableauEntry apiKey cfg oracle exc now).df ∧
      singleRowDiag (tableauEntry apiKey cfg oracle exc now).df = true) ∧
    ((resultColumns (get_job_data apiKey cfg oracle exc now).df).contains "Status"
        = isDiag (get_job_data apiKey cfg oracle exc now).df ∧
      singleRowDiag (get_job_data apiKey cfg oracle exc now).df = true) := by
  constructor
  · unfold tableauEntry
    cases hvc : validate_required_credentials apiKey with
    | error credMsg => exact ⟨rfl, rfl⟩
    | ok u =>
      cases exc with
      | none =>
        dsimp only
        by_cases h : (runLoop oracle cfg.targetJobs cfg.maxPages).allJobs.isEmpty
        · rw [if_pos h]
          exact ⟨rfl, rfl⟩
        · rw [if_neg h]
          exact ⟨rfl, rfl⟩
      | some oe =>
        cases oe with
        | atConfig ty msg => exact ⟨rfl, rfl⟩
        | atNormalize ty msg =>
          dsimp only
          by_cases h : (runLoop oracle cfg.targetJobs cfg.maxPages).allJobs.isEmpty
          · rw [if_pos h]
            exact ⟨rfl, rfl⟩
          · rw [if_neg h]
            exact ⟨rfl, rfl⟩
  · unfold get_job_data
    cases hvc : validate_required_credentials apiKey with
    | error credMsg => exact ⟨rfl, rfl⟩
    | ok u =>
      cases exc with
      | none =>
        dsimp only
        by_cases h : (runLoop oracle cfg.targetJobs cfg.maxPages).allJobs.isEmpty
        · rw [if_pos h]
          exact ⟨rfl, rfl⟩
        · rw [if_neg h]
          exact ⟨rfl, rfl⟩
      | some oe =>
        cases oe with
        | atConfig ty msg => exact ⟨rfl, rfl⟩
        | atNormalize ty msg =>
          dsimp only
          by_cases h : (runLoop oracle cfg.targetJobs cfg.maxPages).allJobs.isEmpty
          · rw [if_pos h]
            exact ⟨rfl, rfl⟩
          · rw [if_neg h]
            exact ⟨rfl, rfl⟩

/-- C5, as the code actually behaves: with the API key missing, the
    Tableau script performs zero network calls but returns a
    PYTHON_ERROR diagnostic, not the intended CREDENTIAL_ERROR one —
    building the CREDENTIAL_ERROR frame raises `ValueError: All arrays
    must be of the same length` inside `pd.DataFrame` because its
    `Setup_Steps` column holds three values while the others hold one,
    and the exception lands in the outermost handler.  The VS Code
    script's credential diagnostic is well-formed, so `get_job_data`
    does return the single-row CREDENTIAL_ERROR table with zero network
    calls, which is what the claim (and the code's own comments)
    intend. -/
theorem missing_key_behavior (cfg : SearchConfig) (oracle : Nat → PageOutcome)
    (exc : Option OuterExc) (now : String) :
    (tableauEntry none cfg oracle exc now).networkCalls = 0 ∧
    dfLookup (tableauEntry none cfg oracle exc now).df "Status" = some ["PYTHON_ERROR"] ∧
    dfLookup (tableauEntry none cfg oracle exc now).df "Error_Message"
      = some ["All arrays must be of the same length"] ∧
    singleRowDiag (tableauEntry none cfg oracle exc now).df = true ∧
    (get_job_data none cfg oracle exc now).networkCalls = 0 ∧
    dfLookup (get_job_data none cfg oracle exc now).df "Status"
      = some ["CREDENTIAL_ERROR"] ∧
    singleRowDiag (get_job_data none cfg oracle exc now).df = true :=
  ⟨rfl, rfl, rfl, rfl, rfl, rfl, rfl⟩

/-- The page oracle of the C4 scenario: pages 1 and 2 return 50 jobs
    each, page 3 returns an empty jobs array, page 4 is never reached. -/
def pagesOracle_50_50_0 : Nat → PageOutcome := fun p =>
  if p = 1 then .success (List.replicate 50 sampleJob1)
  else if p = 2 then .success (List.replicate 50 sampleJob3)
  else .success []

/-- C4: with max_pages=4 and target_jobs=120 and pages returning
    50, 50 and 0 jobs, the loop stops at page 3 with reason
    `emptyPage`, holding exactly 100 accumulated jobs and
    pages_fetched = 3, and both entry points return a job table (not a
    diagnostic) — fewer jobs than the target is not a failure. -/
theorem pagination_scenario_50_50_0 :
    (runLoop pagesOracle_50_50_0 120 4).reason = .emptyPage ∧
    (runLoop pagesOracle_50_50_0 120 4).allJobs.length = 100 ∧
    (runLoop pagesOracle_50_50_0 120 4).pagesFetched = 3 ∧
    isDiag (tableauEntry (some "apikey") defaultConfig pagesOracle_50_50_0 none "ts").df
      = false ∧
    isDiag (get_job_data (some "apikey") defaultConfig pagesOracle_50_50_0 none "ts").df
      = false :=
  ⟨rfl, rfl, rfl, rfl, rfl⟩

/-- C6: when every page fetch fails at the transport level (the request
    raises before any response body is read), the Tableau entry point
    returns the zero-jobs diagnostic with Status=ERROR,
    API_Response_Received "False" and Pages_Fetched "0" (and
    Jobs_Found "0"). -/
theorem all_pages_transport_failure_diag (apiKey : Option String) (cfg : SearchConfig)
    (oracle : Nat → PageOutcome) (now : String)
    (hkey : validate_required_credentials apiKey = .ok ())
    (hfail : ∀ p, oracle p = .transportError) :
    dfLookup (tableauEntry apiKey cfg oracle none now).df "Status" = some ["ERROR"] ∧
    dfLookup (tableauEntry apiKey cfg oracle none now).df "API_Response_Received"
      = some ["False"] ∧
    dfLookup (tableauEntry apiKey cfg oracle none now).df "Pages_Fetched" = some ["0"] ∧
    dfLookup (tableauEntry apiKey cfg oracle none now).df "Jobs_Found" = some ["0"] := by
  cases hm : cfg.maxPages with
  | zero =>
    have hloop : runLoop oracle cfg.targetJobs cfg.maxPages
        = ⟨[], false, 0, 0, .maxPagesExhausted⟩ := by
      rw [hm]
      rfl
    have hentry : tableauEntry apiKey cfg oracle none now
        = ⟨.diag (errorDiagnosticData cfg ⟨[], false, 0, 0, .maxPagesExhausted⟩ now), 0⟩ := by
      unfold tableauEntry
      rw [hkey]
      dsimp only
      rw [hloop]
      rfl
    rw [hentry]
    exact ⟨rfl, rfl, rfl, rfl⟩
  | succ n =>
    have hloop : runLoop oracle cfg.targetJobs cfg.maxPages
        = ⟨[], false, 0, 1, .pageError⟩ := by
      rw [hm]
      unfold runLoop loopGo
      rw [hfail 1]
    have hentry : tableauEntry apiKey cfg oracle none now
        = ⟨.diag (errorDiagnosticData cfg ⟨[], false, 0, 1, .pageError⟩ now), 1⟩ := by
      unfold tableauEntry
      rw [hkey]
      dsimp only
      rw [hloop]
      rfl
    rw [hentry]
    exact ⟨rfl, rfl, rfl, rfl⟩

/-- Witness: the all-transport-failure diagnostic at concrete inputs. -/
theorem all_pages_transport_failure_diag_witness :
    dfLookup (tableauEntry (some "apikey") defaultConfig
        (fun _ => .transportError) none "ts").df "Status" = some ["ERROR"] ∧
    dfLookup (tableauEntry (some "apikey") defaultConfig
        (fun _ => .transportError) none "ts").df "API_Response_Received"
      = some ["False"] ∧
    dfLookup (tableauEntry (some "apikey") defaultConfig
        (fun _ => .transportError) none "ts").df "Pages_Fetched" = some ["0"] ∧
    dfLookup (tableauEntry (some "apikey") defaultConfig
        (fun _ => .transportError) none "ts").df "Jobs_Found" = some ["0"] :=
  all_pages_transport_failure_diag (some "apikey") defaultConfig
    (fun _ => .transportError) "ts" rfl (fun _ => rfl)

/-- One unfolding step of the loop with fuel left. -/
theorem loopGo_succ (oracle : Nat → PageOutcome) (target fuel page : Nat) (a : Acc) :
    loopGo oracle target (fuel + 1) page a =
      match oracle page with
      | .transportError =>
        ⟨a.allJobs, a.apiResponseReceived, a.pagesFetched, a.calls + 1, .pageError⟩
      | .parseError => ⟨a.allJobs, true, page, a.calls + 1, .pageError⟩
      | .success jobs =>
        if jobs.isEmpty then ⟨a.allJobs, true, page, a.calls + 1, .emptyPage⟩
        else
          if target ≤ (a.allJobs ++ jobs).length then
            ⟨a.allJobs ++ jobs, true, page, a.calls + 1, .targetReached⟩
          else loopGo oracle target fuel (page + 1) ⟨a.allJobs ++ jobs, true, page, a.calls + 1⟩ :=
  rfl

/-- Core pagination lemma: if the `js.length` pages starting at `page`
    all succeed with nonempty job lists (the entries of `js`) whose
    running total stays below the target, and the next page's fetch
    fails, the loop stops with reason `pageError` keeping exactly the
    accumulated prefix; a transport-level failure leaves the two flags
    as they were after the last success, a parse-level failure updates
    them to the failing page's number. -/
theorem loopGo_success_then_fail (oracle : Nat → PageOutcome) (target : Nat) :
    ∀ (js : List (List RawJob)) (fuel page : Nat) (a : Acc),
      (∀ i (hi : i < js.length), oracle (page + i) = .success (js.get ⟨i, hi⟩)) →
      (∀ l ∈ js, l ≠ []) →
      a.allJobs.length + js.flatten.length < target →
      js.length + 1 ≤ fuel →
      (oracle (page + js.length) = .transportError →
        loopGo oracle target fuel page a =
          ⟨a.allJobs ++ js.flatten,
           a.apiResponseReceived || !js.isEmpty,
           if js.isEmpty then a.pagesFetched else page + js.length - 1,
           a.calls + js.length + 1, .pageError⟩) ∧
      (oracle (page + js.length) = .parseError →
        loopGo oracle target fuel page a =
          ⟨a.allJobs ++ js.flatten, true, page + js.length,
           a.calls + js.length + 1, .pageError⟩) := by
  intro js
  induction js with
  | nil =>
    intro fuel page a _ _ _ hfuel
    cases fuel with
    | zero => exact absurd hfuel (by omega)
    | succ f =>
      constructor
      · intro hfail
        simp only [List.length_nil, Nat.add_zero] at hfail
        rw [loopGo_succ, hfail]
        simp
      · intro hfail
        simp only [List.length_nil, Nat.add_zero] at hfail
        rw [loopGo_succ, hfail]
        simp
  | cons l rest ih =>
    intro fuel page a hor hne htgt hfuel
    cases fuel with
    | zero => exact absurd hfuel (by omega)
    | succ f =>
      have h0 : oracle page = .success l := by
        have h1 := hor 0 (by simp)
        simpa using h1
      have hl : l ≠ [] := hne l (List.mem_cons_self _ _)
      have hlE : l.isEmpty = false := by
        cases l with
        | nil => exact absurd rfl hl
        | cons x xs => rfl
      have hjoinlen : (l :: rest).flatten.length = l.length + rest.flatten.length := by
        rw [List.flatten_cons, List.length_append]
      have hnotgt : ¬ target ≤ (a.allJobs ++ l).length := by
        rw [List.length_append]
        omega
      have hlP : ¬ l.isEmpty = true := by
        rw [hlE]
        exact Bool.false_ne_true
      have hstep : loopGo oracle target (f + 1) page a
          = loopGo oracle target f (page + 1) ⟨a.allJobs ++ l, true, page, a.calls + 1⟩ := by
        rw [loopGo_succ, h0]
        dsimp only
        rw [if_neg hlP, if_neg hnotgt]
      have hor2 : ∀ i (hi : i < rest.length),
          oracle (page + 1 + i) = .success (rest.get ⟨i, hi⟩) := by
        intro i hi
        have h1 := hor (i + 1) (by simp only [List.length_cons]; omega)
        have h2 : page + (i + 1) = page + 1 + i := by omega
        rw [h2] at h1
        simpa using h1
      have hne2 : ∀ x ∈ rest, x ≠ [] := fun x hx => hne x (List.mem_cons_of_mem _ hx)
      have htgt2 : (⟨a.allJobs ++ l, true, page, a.calls + 1⟩ : Acc).allJobs.length
          + rest.flatten.length < target := by
        dsimp only
        rw [List.length_append]
        omega
      have hfuel2 : rest.length + 1 ≤ f := by
        simp only [List.length_cons] at hfuel
        omega
      have hidx : page + (l :: rest).length = page + 1 + rest.length := by
        simp only [List.length_cons]
        omega
      have hpair := ih f (page + 1) ⟨a.allJobs ++ l, true, page, a.calls + 1⟩
        hor2 hne2 htgt2 hfuel2
      constructor
      · intro hfail
        rw [hidx] at hfail
        rw [hstep, hpair.1 hfail]
        cases rest with
        | nil => simp
        | cons r2 rs =>
          simp [List.append_assoc]
          omega
      · intro hfail
        rw [hidx] at hfail
        rw [hstep, hpair.2 hfail]
        simp [List.append_assoc]
        omega

/-- C7: if pages 1..k succeed with nonempty job lists (totalling fewer
    than the target, so the loop keeps going) and the fetch of page k+1
    fails at either level, only the pagination loop is aborted: the
    jobs accumulated from pages 1..k are kept, flow into the
    normalizer, and the Tableau entry point returns the job table built
    from those prior pages rather than a diagnostic. -/
theorem page_error_keeps_prior_pages (apiKey : Option String) (cfg : SearchConfig)
    (oracle : Nat → PageOutcome) (now : String) (js : List (List RawJob))
    (hkey : validate_required_credentials apiKey = .ok ())
    (hjs : js ≠ [])
    (hor : ∀ i (hi : i < js.length), oracle (1 + i) = .success (js.get ⟨i, hi⟩))
    (hne : ∀ l ∈ js, l ≠ [])
    (htgt : js.flatten.length < cfg.targetJobs)
    (hfuel : js.length + 1 ≤ cfg.maxPages)
    (hfail : oracle (1 + js.length) = .transportError ∨
      oracle (1 + js.length) = .parseError) :
    (runLoop oracle cfg.targetJobs cfg.maxPages).allJobs = js.flatten ∧
    (runLoop oracle cfg.targetJobs cfg.maxPages).reason = .pageError ∧
    (tableauEntry apiKey cfg oracle none now).df = .table (normalize js.flatten) := by
  have hpair := loopGo_success_then_fail oracle cfg.targetJobs js cfg.maxPages 1
    ⟨[], false, 0, 0⟩ hor hne (by simpa using htgt) hfuel
  have hrl : runLoop oracle cfg.targetJobs cfg.maxPages
      = loopGo oracle cfg.targetJobs cfg.maxPages 1 ⟨[], false, 0, 0⟩ := rfl
  have hloop : (runLoop oracle cfg.targetJobs cfg.maxPages).allJobs = js.flatten ∧
      (runLoop oracle cfg.targetJobs cfg.maxPages).reason = .pageError := by
    cases hfail with
    | inl h =>
      rw [hrl, hpair.1 h]
      exact ⟨by simp, rfl⟩
    | inr h =>
      rw [hrl, hpair.2 h]
      exact ⟨by simp, rfl⟩
  refine ⟨hloop.1, hloop.2, ?_⟩
  have hE : (runLoop oracle cfg.targetJobs cfg.maxPages).allJobs.isEmpty = false := by
    rw [hloop.1]
    cases js with
    | nil => exact absurd rfl hjs
    | cons l rest =>
      have hl := hne l (List.mem_cons_self _ _)
      cases l with
      | nil => exact absurd rfl hl
      | cons x xs => rfl
  have hEP : ¬ (runLoop oracle cfg.targetJobs cfg.maxPages).allJobs.isEmpty = true := by
    rw [hE]
    exact Bool.false_ne_true
  unfold tableauEntry
  rw [hkey]
  dsimp only
  rw [if_neg hEP]
  dsimp only
  rw [hloop.1]

/-- The C7 witness oracle: page 1 succeeds with one job, every later
    page fails at the transport level. -/
def failingOracle : Nat → PageOutcome := fun p =>
  if p = 1 then .success [sampleJob1] else .transportError

/-- Witness: a concrete run where page 1 succeeds and page 2 fails
    still returns the job table of page 1. -/
theorem page_error_keeps_prior_pages_witness :
    (runLoop failingOracle 120 4).allJobs = [[sampleJob1]].flatten ∧
    (runLoop failingOracle 120 4).reason = .pageError ∧
    (tableauEntry (some "apikey") defaultConfig failingOracle none "ts").df
      = .table (normalize [[sampleJob1]].flatten) :=
  page_error_keeps_prior_pages (some "apikey") defaultConfig failingOracle "ts"
    [[sampleJob1]] rfl (by decide) (by decide) (by decide) (by decide) (by decide)
    (Or.inl (by decide))

/-- C10: a page whose fetch fails after its body was read and decoded
    (parse-level) still sets api_response_received to true and
    pages_fetched to that page's number before the loop aborts, even
    though the page contributes no jobs — pages_fetched counts pages
    whose response body was read, not pages whose jobs were parsed and
    accumulated. -/
theorem parse_failure_counts_page_as_fetched (oracle : Nat → PageOutcome)
    (target maxPages : Nat) (js : List (List RawJob))
    (hor : ∀ i (hi : i < js.length), oracle (1 + i) = .success (js.get ⟨i, hi⟩))
    (hne : ∀ l ∈ js, l ≠ [])
    (htgt : js.flatten.length < target)
    (hfuel : js.length + 1 ≤ maxPages)
    (hfail : oracle (1 + js.length) = .parseError) :
    (runLoop oracle target maxPages).apiResponseReceived = true ∧
    (runLoop oracle target maxPages).pagesFetched = 1 + js.length ∧
    (runLoop oracle target maxPages).allJobs = js.flatten ∧
    (runLoop oracle target maxPages).reason = .pageError := by
  have hpair := loopGo_success_then_fail oracle target js maxPages 1 ⟨[], false, 0, 0⟩
    hor hne (by simpa using htgt) hfuel
  have hrl : runLoop oracle target maxPages
      = loopGo oracle target maxPages 1 ⟨[], false, 0, 0⟩ := rfl
  rw [hrl, hpair.2 hfail]
  exact ⟨rfl, rfl, by simp, rfl⟩

/-- The C10 witness oracle: page 1 succeeds with one job, every later
    page's body decodes but fails to parse as JSON. -/
def parseFailOracle : Nat → PageOutcome := fun p =>
  if p = 1 then .success [sampleJob1] else .parseError

/-- Witness: a concrete run where page 2 parse-fails reports
    pages_fetched = 2 and api_response_received = true while keeping
    only page 1's job. -/
theorem parse_failure_counts_page_as_fetched_witness :
    (runLoop parseFailOracle 120 4).apiResponseReceived = true ∧
    (runLoop parseFailOracle 120 4).pagesFetched = 2 ∧
    (runLoop parseFailOracle 120 4).allJobs = [sampleJob1] ∧
    (runLoop parseFailOracle 120 4).reason = .pageError :=
  parse_failure_counts_page_as_fetched parseFailOracle 120 4 [[sampleJob1]]
    (by decide) (by decide) (by decide) (by decide) (by decide)

end JobScraper
